import Mathlib

/-!
Shallow embedding of the ThermalStackFEA2 thermal solver.

Sources embedded: element.py (control volumes), node.py (conductive links),
thermal_model.py (lattice builder, link generation, observation, solver loop).

Modelling conventions:
* Python floats are modelled as exact rationals.
* Python objects that are mutated through shared references (elements held both
  in the 3D list and in node/registry lists) are modelled as an index-addressed
  arena: lists/functions indexed by the element's position, with links and
  registries storing indices instead of references.
* Fallible Python code (raise) is modelled with Except String.
* Division by zero is total (q / 0 = 0) in Lean while Python raises
  ZeroDivisionError; the claims below never exercise those inputs.
-/

namespace ThermalStack

/-- A Python value passed for `P` or `T`: a number, a callable of time, or
anything else (which the constructors reject with ValueError). -/
inductive PyVal where
  | num (q : ℚ)
  | fn (f : ℚ → ℚ)
  | other

/-- Control volume state, from element.py.  The fields mirror the attributes
assigned in `Element.__init__`.  `P_of_t`/`T_of_t` are junk functions when
`P_is_constant`/`¬T_is_prescribed` (in Python the attribute is then absent and
never read).  `neighbors` holds linear indices standing for the Python object
references appended during link generation.  The rendering-only corner
coordinate fields are omitted (purely geometric, never read by the claims). -/
structure Element where
  x : ℚ
  y : ℚ
  z : ℚ
  eltype : String
  label : String
  ref : String
  rth_x_half : ℚ
  rth_y_half : ℚ
  rth_z_half : ℚ
  capacitance : ℚ
  P_is_constant : Bool
  P : ℚ
  P_of_t : ℚ → ℚ
  T_is_prescribed : Bool
  T : ℚ
  T_of_t : ℚ → ℚ
  energy_buffer : ℚ
  neighbors : List ℕ

instance : Inhabited Element :=
  ⟨{ x := 0, y := 0, z := 0, eltype := "", label := "", ref := "",
     rth_x_half := 0, rth_y_half := 0, rth_z_half := 0, capacitance := 0,
     P_is_constant := true, P := 0, P_of_t := fun _ => 0,
     T_is_prescribed := false, T := 0, T_of_t := fun _ => 0,
     energy_buffer := 0, neighbors := [] }⟩

/-- Helper assembling the element record from the already-resolved P/T data
(the derived resistances and capacitance are computed exactly as in
`Element.__init__`). -/
def Element.initAux (x y z : ℚ) (eltype label ref : String) (k : ℚ)
    (cp rho : ℚ) (pconst : Bool) (pval : ℚ) (pfn : ℚ → ℚ)
    (tpres : Bool) (tval : ℚ) (tfn : ℚ → ℚ) : Element :=
  { x := x, y := y, z := z, eltype := eltype, label := label, ref := ref,
    rth_x_half := (x / (y * z * k)) * (1/2),
    rth_y_half := (y / (x * z * k)) * (1/2),
    rth_z_half := (z / (y * x * k)) * (1/2),
    capacitance := x * y * z * (cp * rho * 1000),
    P_is_constant := pconst, P := pval, P_of_t := pfn,
    T_is_prescribed := tpres, T := tval, T_of_t := tfn,
    energy_buffer := 0, neighbors := [] }

/-- `Element.__init__` from element.py: the P branch resolves first (constant,
callable evaluated at 0, or ValueError), then the T branch (callable evaluated
at 0, constant, or ValueError). -/
def Element.init (x y z : ℚ) (eltype label ref : String) (k : ℚ)
    (T P : PyVal) (cp rho : ℚ) : Except String Element :=
  match P with
  | .other => Except.error "P must be a number or a function of time"
  | .num p =>
    match T with
    | .other => Except.error "T must be a number or a function of time"
    | .fn g =>
        Except.ok (Element.initAux x y z eltype label ref k cp rho
          true p (fun _ => 0) true (g 0) g)
    | .num t0 =>
        Except.ok (Element.initAux x y z eltype label ref k cp rho
          true p (fun _ => 0) false t0 (fun _ => 0))
  | .fn f =>
    match T with
    | .other => Except.error "T must be a number or a function of time"
    | .fn g =>
        Except.ok (Element.initAux x y z eltype label ref k cp rho
          false (f 0) f true (g 0) g)
    | .num t0 =>
        Except.ok (Element.initAux x y z eltype label ref k cp rho
          false (f 0) f false t0 (fun _ => 0))

/-- `Element.modify`: re-runs `__init__` with the original geometry.  (Python
mutates the object in place; we return the rebuilt element.  On a ValueError
Python would leave the object partially reassigned; the claims below only
exercise the successful case.) -/
def Element.modify (e : Element) (eltype label ref : String) (k : ℚ)
    (T P : PyVal) (cp rho : ℚ) : Except String Element :=
  Element.init e.x e.y e.z eltype label ref k T P cp rho

/-- `Element.apply_energy_buffer`. -/
def Element.apply_energy_buffer (e : Element) : Element :=
  { e with T := e.T + e.energy_buffer / e.capacitance, energy_buffer := 0 }

/-- `Element.accumulate_energy`. -/
def Element.accumulate_energy (e : Element) (energy : ℚ) : Element :=
  { e with energy_buffer := e.energy_buffer + energy }

/-- `Element.self_heat`. -/
def Element.self_heat (e : Element) (dt : ℚ) (t : Option ℚ) :
    Except String Element :=
  if e.P_is_constant then
    Except.ok (e.accumulate_energy (e.P * dt))
  else
    match t with
    | some tv =>
        let e2 := { e with P := e.P_of_t tv }
        Except.ok (e2.accumulate_energy (e2.P * dt))
    | none => Except.error "If P is variable, time (t) must be provided."

/-- `Element.prescribe_temperature`. -/
def Element.prescribe_temperature (e : Element) (t : ℚ) : Element :=
  if e.T_is_prescribed then { e with T := e.T_of_t t } else e

/-- `Element.get_eltype`. -/
def Element.get_eltype (e : Element) : String := e.eltype

/-- `Element.get_size`. -/
def Element.get_size (e : Element) (axis : String) : Except String ℚ :=
  if axis = "x" then Except.ok e.x
  else if axis = "y" then Except.ok e.y
  else if axis = "z" then Except.ok e.z
  else Except.error "Invalid axis. Must be x, y, or z."

/-- `ThermalModel.observe_T_avg` (thermal_model.py): accumulate then divide by
the group size.  (On an empty group Python raises ZeroDivisionError; here the
total division yields 0 — the claims never query an empty average group.) -/
def observe_T_avg (elements_observed : List Element) : ℚ :=
  (elements_observed.foldl (fun acc e => acc + e.T) 0) /
    (elements_observed.length : ℚ)

/-- `ThermalModel.observe_T_max`: fold starting from the literal 0, replacing
the accumulator whenever a member's T is strictly greater. -/
def observe_T_max (elements_observed : List Element) : ℚ :=
  elements_observed.foldl (fun m e => if e.T > m then e.T else m) 0

/-- `ThermalModel.observe_P`: sum of the members' current `P` values. -/
def observe_P (elements_observed : List Element) : ℚ :=
  elements_observed.foldl (fun acc e => acc + e.P) 0

/-- Python `int(q)`: truncation toward zero. -/
def pyInt (q : ℚ) : ℤ := q.num / (q.den : ℤ)

/-- Python `round` to an integer: round-half-to-even. -/
def pyRoundHalfEven (q : ℚ) : ℤ :=
  if q - ⌊q⌋ < 1/2 then ⌊q⌋
  else if q - ⌊q⌋ > 1/2 then ⌊q⌋ + 1
  else if Even ⌊q⌋ then ⌊q⌋ else ⌊q⌋ + 1

/-- Python `round(q, 3)` on exact rationals. -/
def pyRound3 (q : ℚ) : ℚ := (pyRoundHalfEven (q * 1000) : ℚ) / 1000

/-- A conductive link (node.py `Node`): the two endpoint elements are stored
as linear lattice indices (standing for the Python object references), plus
the series resistance computed once at construction. -/
structure SNode where
  i1 : ℕ
  i2 : ℕ
  rth : ℚ
deriving DecidableEq

/-- The resistance computed in `Node.__init__` for a given orientation string
(ValueError on anything other than x/y/z). -/
def Node.mkRth (el1 el2 : Element) (orientation : String) : Except String ℚ :=
  if orientation = "x" then Except.ok (el1.rth_x_half + el2.rth_x_half)
  else if orientation = "y" then Except.ok (el1.rth_y_half + el2.rth_y_half)
  else if orientation = "z" then Except.ok (el1.rth_z_half + el2.rth_z_half)
  else Except.error "invalid orientation argument"

/-- The 3D element list, indexed `[x][y][z]` as in thermal_model.py. -/
abbrev Lattice := List (List (List Element))

/-- Read a lattice cell (in-range by construction wherever used). -/
def get3 (lat : Lattice) (x y z : ℕ) : Element :=
  ((lat.getD x []).getD y []).getD z default

/-- Overwrite a lattice cell. -/
def set3 (lat : Lattice) (x y z : ℕ) (e : Element) : Lattice :=
  lat.set x ((lat.getD x []).set y (((lat.getD x []).getD y []).set z e))

/-- Python list indexing `l[i]`: negative indices count from the end,
anything out of range raises IndexError. -/
def pyGet (l : List α) (i : ℤ) : Except String α :=
  let j : ℤ := if i < 0 then i + l.length else i
  if 0 ≤ j then
    match l.get? j.toNat with
    | some a => Except.ok a
    | none => Except.error "IndexError: list index out of range"
  else Except.error "IndexError: list index out of range"

/-- Python list element assignment `l[i] = a` (same index semantics). -/
def pySet (l : List α) (i : ℤ) (a : α) : Except String (List α) :=
  let j : ℤ := if i < 0 then i + l.length else i
  if 0 ≤ j ∧ j.toNat < l.length then Except.ok (l.set j.toNat a)
  else Except.error "IndexError: list assignment index out of range"

/-- `self.elements[x][y][z].modify(...)` with Python index semantics: the
partially applied rebuild `f` replaces the element in place. -/
def pyModify3 (lat : Lattice) (x y z : ℤ)
    (f : Element → Except String Element) : Except String Lattice := do
  let plane ← pyGet lat x
  let row ← pyGet plane y
  let e ← pyGet row z
  let e2 ← f e
  let row2 ← pySet row z e2
  let plane2 ← pySet plane y row2
  pySet lat x plane2

/-- Material descriptor dictionary handed to every composition call. -/
structure Props where
  eltype : String
  label : String
  ref : String
  k : ℚ
  cp : ℚ
  rho : ℚ

/-- The model state: the 3D element list, the envelope element counts, and the
link list.  The observation registries, the output table and the layout
bookkeeping are modelled as explicit arguments/results of the functions that
use them. -/
structure ThermalModel where
  elements : Option Lattice
  x_el_qty_old : ℕ
  y_el_qty_old : ℕ
  z_el_qty_old : ℕ
  nodes : List SNode

/-- `ThermalModel.__init__`. -/
def ThermalModel.initModel : ThermalModel :=
  { elements := none, x_el_qty_old := 0, y_el_qty_old := 0, z_el_qty_old := 0,
    nodes := [] }

/-- `ThermalModel.compute_element_wise_P`. -/
def compute_element_wise_P (P : PyVal) (total_el_qty : ℕ) :
    Except String PyVal :=
  match P with
  | .num p => Except.ok (.num (p / (total_el_qty : ℚ)))
  | .fn f => Except.ok (.fn (fun t => f t / (total_el_qty : ℚ)))
  | .other => Except.error "P must be valid input"

/-- `ThermalModel.create_volume`: element counts per axis by `int()` division,
the call's `P` divided across every element of this call, and a fresh
`x_el_qty × y_el_qty × z_el_qty` lattice of identically initialised elements. -/
def ThermalModel.create_volume (m : ThermalModel)
    (x_vol y_vol z_vol x_el y_el z_el : ℚ) (properties : Props)
    (T P : PyVal) : Except String ThermalModel := do
  match m.elements with
  | some _ =>
      Except.error "create_first_volume method called when mesh already exists"
  | none =>
    let x_el_qty := (pyInt (x_vol / x_el)).toNat
    let y_el_qty := (pyInt (y_vol / y_el)).toNat
    let z_el_qty := (pyInt (z_vol / z_el)).toNat
    let total_el_qty := x_el_qty * y_el_qty * z_el_qty
    let P_el ← compute_element_wise_P P total_el_qty
    let el ← Element.init x_el y_el z_el properties.eltype properties.label
      properties.ref properties.k T P_el properties.cp properties.rho
    Except.ok { m with
      elements := some (List.replicate x_el_qty
        (List.replicate y_el_qty (List.replicate z_el_qty el))),
      x_el_qty_old := x_el_qty, y_el_qty_old := y_el_qty,
      z_el_qty_old := z_el_qty }

/-- One cell of the lattice rebuilt by `extend_volume`: either the old element
carried over, or a freshly initialised extension element whose orthogonal
sizes are inherited from the boundary row (the code's
`get_size("y")`-style reads are in-range field reads in every reachable case).
The final branch corresponds to axis = "z" (the axis token was validated
before any cell is built). -/
def extendCell (old : Lattice) (axis : String) (polarity : ℤ)
    (thickness_element : ℚ) (properties : Props) (T : PyVal) (P_el : PyVal)
    (divider : ℕ) (x y z : ℕ) : Except String Element :=
  if axis = "x" then
    if (polarity = 1 ∧ x < divider) ∨ (polarity = -1 ∧ divider ≤ x) then
      Except.ok (get3 old (if polarity = 1 then x else x - divider) y z)
    else
      Element.init thickness_element (get3 old 0 y z).y (get3 old 0 y z).z
        properties.eltype properties.label properties.ref properties.k
        T P_el properties.cp properties.rho
  else if axis = "y" then
    if (polarity = 1 ∧ y < divider) ∨ (polarity = -1 ∧ divider ≤ y) then
      Except.ok (get3 old x (if polarity = 1 then y else y - divider) z)
    else
      Element.init (get3 old x 0 z).x thickness_element (get3 old x 0 z).z
        properties.eltype properties.label properties.ref properties.k
        T P_el properties.cp properties.rho
  else
    if (polarity = 1 ∧ z < divider) ∨ (polarity = -1 ∧ divider ≤ z) then
      Except.ok (get3 old x y (if polarity = 1 then z else z - divider))
    else
      Element.init (get3 old x y 0).x (get3 old x y 0).y thickness_element
        properties.eltype properties.label properties.ref properties.k
        T P_el properties.cp properties.rho

/-- `ThermalModel.extend_volume`: grows the envelope along one axis.  Note the
code's divider for polarity −1 is the **new** total count on that axis, and the
per-element power divides the call's `P` by the **whole** extended lattice's
element count. -/
def ThermalModel.extend_volume (m : ThermalModel) (axis : String)
    (polarity : ℤ) (size_extrusion thickness_element : ℚ) (properties : Props)
    (T P : PyVal) : Except String ThermalModel := do
  let ext := (pyInt (size_extrusion / thickness_element)).toNat
  let dims : ℕ × ℕ × ℕ × ℕ ←
    if axis = "x" then
      Except.ok (m.x_el_qty_old + ext, m.y_el_qty_old, m.z_el_qty_old,
        if polarity = 1 then m.x_el_qty_old else m.x_el_qty_old + ext)
    else if axis = "y" then
      Except.ok (m.x_el_qty_old, m.y_el_qty_old + ext, m.z_el_qty_old,
        if polarity = 1 then m.y_el_qty_old else m.y_el_qty_old + ext)
    else if axis = "z" then
      Except.ok (m.x_el_qty_old, m.y_el_qty_old, m.z_el_qty_old + ext,
        if polarity = 1 then m.z_el_qty_old else m.z_el_qty_old + ext)
    else Except.error "invalid argument, axis"
  let x_el_qty_new := dims.1
  let y_el_qty_new := dims.2.1
  let z_el_qty_new := dims.2.2.1
  let divider := dims.2.2.2
  let old ← match m.elements with
    | some lat => Except.ok lat
    | none => Except.error "TypeError: NoneType object is not subscriptable"
  let P_el ← compute_element_wise_P P
    (x_el_qty_new * y_el_qty_new * z_el_qty_new)
  let newlat ← (List.range x_el_qty_new).mapM (fun x =>
    (List.range y_el_qty_new).mapM (fun y =>
      (List.range z_el_qty_new).mapM (fun z =>
        extendCell old axis polarity thickness_element properties T P_el
          divider x y z)))
  Except.ok { m with
    elements := some newlat,
    x_el_qty_old := x_el_qty_new, y_el_qty_old := y_el_qty_new,
    z_el_qty_old := z_el_qty_new }

/-- `ThermalModel.modify_volume`: rebuilds every element of the index box via
`Element.modify`.  There is no envelope check (the code's own TODO): Python
semantics are kept — negative start coordinates wrap, an out-of-range positive
index raises IndexError mid-loop, and any elements already visited stay
modified.  Returns the (possibly partially) mutated model together with the
outcome. -/
def ThermalModel.modify_volume (m : ThermalModel)
    (x_coord y_coord z_coord : ℤ) (x_ext y_ext z_ext : ℕ)
    (properties : Props) (T P : PyVal) :
    ThermalModel × Except String Unit :=
  let indeces_x := (List.range x_ext).map (fun i => x_coord + i)
  let indeces_y := (List.range y_ext).map (fun i => y_coord + i)
  let indeces_z := (List.range z_ext).map (fun i => z_coord + i)
  match compute_element_wise_P P (x_ext * y_ext * z_ext) with
  | .error s => (m, Except.error s)
  | .ok P_el =>
    match m.elements with
    | none => (m, Except.error "TypeError: NoneType object is not subscriptable")
    | some lat =>
      let triples := indeces_x.flatMap (fun x =>
        indeces_y.flatMap (fun y => indeces_z.map (fun z => (x, y, z))))
      let step : Lattice × Option String → ℤ × ℤ × ℤ →
          Lattice × Option String := fun st xyz =>
        match st.2 with
        | some _ => st
        | none =>
          match pyModify3 st.1 xyz.1 xyz.2.1 xyz.2.2 (fun e =>
              e.modify properties.eltype properties.label properties.ref
                properties.k T P_el properties.cp properties.rho) with
          | .ok lat2 => (lat2, none)
          | .error s => (st.1, some s)
      let out := triples.foldl step (lat, none)
      ({ m with elements := some out.1 },
        match out.2 with
        | none => Except.ok ()
        | some s => Except.error s)

/-- Linear index of lattice position `(x, y, z)` in x-outer, z-inner scan
order: this is the arena address standing for the Python object reference. -/
def linIdx (ny nz x y z : ℕ) : ℕ := (x * ny + y) * nz + z

/-- Read the element a linear index refers to. -/
def getLin (lat : Lattice) (ny nz i : ℕ) : Element :=
  get3 lat (i / (ny * nz)) ((i / nz) % ny) (i % nz)

/-- Append a linear index to the informational neighbor list of the element at
`(x, y, z)` (the Python `element.neighbors.append(...)`). -/
def appendNeighbor (lat : Lattice) (x y z : ℕ) (j : ℕ) : Lattice :=
  set3 lat x y z
    { get3 lat x y z with neighbors := (get3 lat x y z).neighbors ++ [j] }

/-- State threaded through the `generate_nodes` scan: the lattice (whose
neighbor lists are being extended), the node list built so far, and the value
of the Python local variable `neighbor_x`, which is only reassigned when the
x-branch runs and is read — stale — by the y- and z-branch suppression tests
(`none` at a read means Python's NameError). -/
structure GenSt where
  lat : Lattice
  nodes : List SNode
  lastNX : Option ℕ

/-- The body of the `generate_nodes` triple loop for one element, translated
branch by branch (including the copy/pasted `neighbor_x` reads in the y and z
conditions and Python's short-circuit evaluation of `A or (B and C)`). -/
def genCellStep (nx ny nz : ℕ) (st : GenSt) (x y z : ℕ) :
    Except String GenSt := do
  let el := get3 st.lat x y z
  if el.get_eltype = "null" then
    Except.ok st
  else do
    let st ←
      if x + 1 < nx then do
        let nEl := get3 st.lat (x + 1) y z
        let st : GenSt := { st with lastNX := some (linIdx ny nz (x + 1) y z) }
        if nEl.get_eltype ≠ "null" ∨
            (el.get_eltype = "reservoir" ∧ nEl.get_eltype ≠ "reservoir") then do
          let lat := appendNeighbor st.lat x y z (linIdx ny nz (x + 1) y z)
          let lat := appendNeighbor lat (x + 1) y z (linIdx ny nz x y z)
          let rth ← Node.mkRth el nEl "x"
          Except.ok
            { st with
              lat := lat,
              nodes := st.nodes ++
                [⟨linIdx ny nz x y z, linIdx ny nz (x + 1) y z, rth⟩] }
        else Except.ok st
      else Except.ok st
    let st ←
      if y + 1 < ny then do
        let nEl := get3 st.lat x (y + 1) z
        let cond ←
          if nEl.get_eltype ≠ "null" then Except.ok true
          else if el.get_eltype ≠ "reservoir" then Except.ok false
          else match st.lastNX with
            | none => Except.error "NameError: name neighbor_x is not defined"
            | some i =>
                Except.ok (decide ((getLin st.lat ny nz i).get_eltype ≠ "reservoir"))
        if cond then do
          let lat := appendNeighbor st.lat x y z (linIdx ny nz x (y + 1) z)
          let lat := appendNeighbor lat x (y + 1) z (linIdx ny nz x y z)
          let rth ← Node.mkRth el nEl "y"
          Except.ok
            { st with
              lat := lat,
              nodes := st.nodes ++
                [⟨linIdx ny nz x y z, linIdx ny nz x (y + 1) z, rth⟩] }
        else Except.ok st
      else Except.ok st
    let st ←
      if z + 1 < nz then do
        let nEl := get3 st.lat x y (z + 1)
        let cond ←
          if nEl.get_eltype ≠ "null" then Except.ok true
          else if el.get_eltype ≠ "reservoir" then Except.ok false
          else match st.lastNX with
            | none => Except.error "NameError: name neighbor_x is not defined"
            | some i =>
                Except.ok (decide ((getLin st.lat ny nz i).get_eltype ≠ "reservoir"))
        if cond then do
          let lat := appendNeighbor st.lat x y z (linIdx ny nz x y (z + 1))
          let lat := appendNeighbor lat x y (z + 1) (linIdx ny nz x y z)
          let rth ← Node.mkRth el nEl "z"
          Except.ok
            { st with
              lat := lat,
              nodes := st.nodes ++
                [⟨linIdx ny nz x y z, linIdx ny nz x y (z + 1), rth⟩] }
        else Except.ok st
      else Except.ok st
    Except.ok st

/-- `ThermalModel.generate_nodes`: the forward scan in increasing x, then y,
then z.  (The trailing `establish_corner_coordinates` call is omitted: it is
purely geometric and read by nothing the claims mention.) -/
def ThermalModel.generate_nodes (m : ThermalModel) :
    Except String ThermalModel := do
  let lat ← match m.elements with
    | some lat => Except.ok lat
    | none => Except.error "TypeError: NoneType object is not subscriptable"
  let st ← (List.range m.x_el_qty_old).foldlM (fun st x =>
    (List.range m.y_el_qty_old).foldlM (fun st y =>
      (List.range m.z_el_qty_old).foldlM (fun st z =>
        genCellStep m.x_el_qty_old m.y_el_qty_old m.z_el_qty_old st x y z)
      st) st) (⟨lat, m.nodes, none⟩ : GenSt)
  Except.ok { m with elements := some st.lat, nodes := st.nodes }

/-- Flatten the 3D list in the solver's scan order (x outer, then y, then z):
position `(x, y, z)` lands at linear index `linIdx ny nz x y z`. -/
def flattenLattice (lat : Lattice) : List Element :=
  (lat.map (fun plane => plane.flatten)).flatten

/-- The element store for the solving phase: Python object references become
linear indices into this arena. -/
abbrev Arena := ℕ → Element

/-- The arena view of a flattened element list. -/
def arenaOf (els : List Element) : Arena := fun i => els.getD i default

/-- `Element.accumulate_energy` performed through a reference. -/
def accumAt (A : Arena) (i : ℕ) (q : ℚ) : Arena :=
  Function.update A i ((A i).accumulate_energy q)

/-- The energy `q = q_dot * dt` moved by one link in one step
(`Node.calculate_heattransfer`'s locals `q_dot` and `q`). -/
def qOf (dt : ℚ) (A : Arena) (nd : SNode) : ℚ :=
  ((A nd.i2).T - (A nd.i1).T) / nd.rth * dt

/-- `Node.calculate_heattransfer(dt)`: heat flow from the pre-transfer
temperatures, `+q` deposited into `el1`'s buffer and `−q` into `el2`'s. -/
def nodeTransfer (dt : ℚ) (A : Arena) (nd : SNode) : Arena :=
  accumAt (accumAt A nd.i1 (qOf dt A nd)) nd.i2 (-(qOf dt A nd))

/-- The solver's link loop: `for node in self.nodes: node.calculate_heattransfer(dt)`. -/
def linkPhase (dt : ℚ) (A : Arena) (nodes : List SNode) : Arena :=
  nodes.foldl (nodeTransfer dt) A

/-- `element.self_heat(dt, t_cur)` through a reference (the solver always
passes a time value, so the ValueError branch of `self_heat` is dead here). -/
def selfHeatAt (dt t : ℚ) (A : Arena) (i : ℕ) : Arena :=
  Function.update A i
    (let e := A i
     if e.P_is_constant then e.accumulate_energy (e.P * dt)
     else ({ e with P := e.P_of_t t }).accumulate_energy (e.P_of_t t * dt))

/-- The solver's self-heating loop over the powered elements. -/
def powerPhase (dt t : ℚ) (A : Arena) (power : List ℕ) : Arena :=
  power.foldl (selfHeatAt dt t) A

/-- `element.apply_energy_buffer()` through a reference. -/
def applyAt (A : Arena) (i : ℕ) : Arena :=
  Function.update A i (A i).apply_energy_buffer

/-- The solver's conservation-of-energy loop over the CoE elements. -/
def applyPhase (A : Arena) (coe : List ℕ) : Arena :=
  coe.foldl applyAt A

/-- `element.prescribe_temperature(t_cur)` through a reference. -/
def prescribeAt (t : ℚ) (A : Arena) (i : ℕ) : Arena :=
  Function.update A i ((A i).prescribe_temperature t)

/-- The solver's prescribed-temperature loop. -/
def prescribePhase (t : ℚ) (A : Arena) (presc : List ℕ) : Arena :=
  presc.foldl (prescribeAt t) A

/-- One physics step of `ThermalModel.solve`'s main loop, in the code's order:
all link transfers, then all self-heating, then the buffer application over
the conservation set, then the prescribed-temperature overwrite — all at the
pre-advance time `t`. -/
def solverStep (dt t : ℚ) (A : Arena) (nodes : List SNode)
    (power coe presc : List ℕ) : Arena :=
  prescribePhase t (applyPhase (powerPhase dt t (linkPhase dt A nodes) power) coe) presc

/-- The solver pre-pass over the flattened lattice: indices of elements with a
non-zero constant power or a time-varying power (`elements_to_power`). -/
def elementsToPower (els : List Element) : List ℕ :=
  (List.range els.length).filter (fun i =>
    let e := els.getD i default
    (e.P ≠ 0 ∧ e.P_is_constant = true) ∨ e.P_is_constant = false)

/-- The solver pre-pass: indices of non-null, non-reservoir elements
(`elements_to_CoE`).  Note the test looks only at the element type. -/
def elementsToCoE (els : List Element) : List ℕ :=
  (List.range els.length).filter (fun i =>
    let e := els.getD i default
    e.eltype ≠ "null" ∧ e.eltype ≠ "reservoir")

/-- The solver pre-pass: indices of elements with a prescribed temperature
(`elements_to_prescribe_T`). -/
def elementsToPrescribeT (els : List Element) : List ℕ :=
  (List.range els.length).filter (fun i => (els.getD i default).T_is_prescribed)

/-- How a `solve` run ended: the convergence break (tagged with the sampling
time at which it fired), the `t_cur < t_max` loop condition failing, or the
embedding's fuel running out (never the case for sufficient fuel). -/
inductive StopReason where
  | converged (t : ℚ)
  | tmaxReached
  | fuelOut
deriving DecidableEq

/-- The loop state of `ThermalModel.solve`: iteration counter, current time,
the two convergence samples and the retained `dT_dt_cur`, the element arena,
and the accumulated output table (each row `[t_cur, …rounded values…]`). -/
structure LoopState where
  iteration : ℕ
  t_cur : ℚ
  Tprev : Option ℚ
  Tcur : Option ℚ
  dTdt : Option ℚ
  A : Arena
  df : List (List ℚ)

/-- The data row gathered at a sampling instant: the unrounded time, then the
rounded average-T, max-T and power observations in registration order. -/
def sampleRow (A : Arena) (t : ℚ) (obsTavg obsTmax obsP : List (List ℕ)) :
    List ℚ :=
  [t] ++ obsTavg.map (fun g => pyRound3 (observe_T_avg (g.map A)))
      ++ obsTmax.map (fun g => pyRound3 (observe_T_max (g.map A)))
      ++ obsP.map (fun g => pyRound3 (observe_P (g.map A)))

/-- The sampling block at the top of the loop body: update the convergence
samples, recompute `dT_dt_cur` when both samples exist, break (returning the
table as accumulated so far, `Sum.inl`) when `|dT_dt_cur| < |dT_dt_converge|`,
otherwise append this sample's row. -/
def sampleBlock (dt_sampling dT_dt_converge : ℚ) (conv : List ℕ)
    (obsTavg obsTmax obsP : List (List ℕ)) (st : LoopState) :
    List (List ℚ) ⊕ LoopState :=
  let Tprev := st.Tcur
  let Tcur : Option ℚ := some (observe_T_avg (conv.map st.A))
  let dTdt : Option ℚ :=
    match Tcur, Tprev with
    | some c, some p => some ((c - p) / dt_sampling)
    | _, _ => st.dTdt
  if (match dTdt with
      | some d => decide (|d| < |dT_dt_converge|)
      | none => false) then
    Sum.inl st.df
  else
    Sum.inr { st with
      Tprev := Tprev, Tcur := Tcur, dTdt := dTdt,
      df := st.df ++ [sampleRow st.A st.t_cur obsTavg obsTmax obsP] }

/-- The `while t_cur < t_max` loop of `ThermalModel.solve`, with explicit
fuel for the recursion.  (When `interval = 0` — `dt_sampling < dt` — Python's
`iteration % 0` raises ZeroDivisionError while Lean's `% 0` is the identity;
the claims only use positive intervals.) -/
def solveLoop (dt dt_sampling t_max dT_dt_converge : ℚ) (interval : ℕ)
    (nodes : List SNode) (power coe presc conv : List ℕ)
    (obsTavg obsTmax obsP : List (List ℕ)) :
    ℕ → LoopState → List (List ℚ) × StopReason
  | 0, st => (st.df, .fuelOut)
  | fuel + 1, st =>
    if st.t_cur < t_max then
      match (if st.iteration % interval = 0 then
               sampleBlock dt_sampling dT_dt_converge conv obsTavg obsTmax obsP st
             else Sum.inr st) with
      | Sum.inl df => (df, .converged st.t_cur)
      | Sum.inr st1 =>
        solveLoop dt dt_sampling t_max dT_dt_converge interval nodes power
          coe presc conv obsTavg obsTmax obsP fuel
          { st1 with
            A := solverStep dt st1.t_cur st1.A nodes power coe presc,
            iteration := st1.iteration + 1,
            t_cur := st1.t_cur + dt }
    else (st.df, .tmaxReached)

/-- `ThermalModel.solve` over the flattened lattice: the pre-pass partition,
then the sampled integration loop.  The observation registries are passed as
index groups (the references gathered by the `observe_these_labels_*` calls). -/
def solve (els : List Element) (nodes : List SNode) (conv : List ℕ)
    (obsTavg obsTmax obsP : List (List ℕ))
    (dt dt_sampling t_max dT_dt_converge : ℚ) (fuel : ℕ) :
    List (List ℚ) × StopReason :=
  let A : Arena := arenaOf els
  solveLoop dt dt_sampling t_max dT_dt_converge
    (pyInt (dt_sampling / dt)).toNat nodes
    (elementsToPower els) (elementsToCoE els) (elementsToPrescribeT els)
    conv obsTavg obsTmax obsP fuel
    { iteration := 0, t_cur := 0, Tprev := none, Tcur := none, dTdt := none,
      A := A, df := [] }

/-! Helper lemmas about the buffer-accumulation arena updates. -/

lemma accumAt_same (A : Arena) (i : ℕ) (q : ℚ) :
    accumAt A i q i = (A i).accumulate_energy q := by
  unfold accumAt
  exact Function.update_same i ((A i).accumulate_energy q) A

lemma accumAt_ne (A : Arena) (i : ℕ) (q : ℚ) {k : ℕ} (h : k ≠ i) :
    accumAt A i q k = A k := by
  unfold accumAt
  exact Function.update_noteq h ((A i).accumulate_energy q) A

lemma accumulate_comm (e : Element) (a b : ℚ) :
    (e.accumulate_energy a).accumulate_energy b
      = (e.accumulate_energy b).accumulate_energy a := by
  simp [Element.accumulate_energy, add_right_comm]

lemma accumAt_comm (A : Arena) (i j : ℕ) (a b : ℚ) :
    accumAt (accumAt A i a) j b = accumAt (accumAt A j b) i a := by
  by_cases hij : i = j
  · subst hij
    unfold accumAt
    rw [Function.update_idem, Function.update_idem, Function.update_same,
      Function.update_same, accumulate_comm]
  · unfold accumAt
    rw [Function.update_noteq (Ne.symm hij), Function.update_noteq hij,
      Function.update_comm hij]

lemma accumAt_T (A : Arena) (i : ℕ) (q : ℚ) (k : ℕ) :
    (accumAt A i q k).T = (A k).T := by
  by_cases h : k = i
  · subst h; rw [accumAt_same]; rfl
  · rw [accumAt_ne A i q h]

lemma accumAt_capacitance (A : Arena) (i : ℕ) (q : ℚ) (k : ℕ) :
    (accumAt A i q k).capacitance = (A k).capacitance := by
  by_cases h : k = i
  · subst h; rw [accumAt_same]; rfl
  · rw [accumAt_ne A i q h]

lemma accumAt_buffer_same (A : Arena) (i : ℕ) (q : ℚ) :
    (accumAt A i q i).energy_buffer = (A i).energy_buffer + q := by
  rw [accumAt_same]; rfl

lemma qOf_congr (dt : ℚ) {A B : Arena} (nd : SNode)
    (h : ∀ k, (B k).T = (A k).T) : qOf dt B nd = qOf dt A nd := by
  simp [qOf, h]

lemma nodeTransfer_T (dt : ℚ) (A : Arena) (nd : SNode) (k : ℕ) :
    (nodeTransfer dt A nd k).T = (A k).T := by
  unfold nodeTransfer
  rw [accumAt_T, accumAt_T]

lemma nodeTransfer_capacitance (dt : ℚ) (A : Arena) (nd : SNode) (k : ℕ) :
    (nodeTransfer dt A nd k).capacitance = (A k).capacitance := by
  unfold nodeTransfer
  rw [accumAt_capacitance, accumAt_capacitance]

lemma nodeTransfer_comm (dt : ℚ) (A : Arena) (a b : SNode) :
    nodeTransfer dt (nodeTransfer dt A a) b
      = nodeTransfer dt (nodeTransfer dt A b) a := by
  have hqb : qOf dt (nodeTransfer dt A a) b = qOf dt A b :=
    qOf_congr dt b (fun k => nodeTransfer_T dt A a k)
  have hqa : qOf dt (nodeTransfer dt A b) a = qOf dt A a :=
    qOf_congr dt a (fun k => nodeTransfer_T dt A b k)
  unfold nodeTransfer at hqb hqa ⊢
  rw [hqb, hqa]
  rw [accumAt_comm _ a.i2 b.i1, accumAt_comm _ a.i1 b.i1,
    accumAt_comm _ a.i2 b.i2, accumAt_comm _ a.i1 b.i2]

lemma foldl_perm_of_comm {α β : Type _} (f : β → α → β)
    (hc : ∀ b x y, f (f b x) y = f (f b y) x)
    {l1 l2 : List α} (p : l1.Perm l2) : ∀ b, l1.foldl f b = l2.foldl f b := by
  induction p with
  | nil => intro b; rfl
  | cons x _ ih => intro b; simpa using ih (f b x)
  | swap x y l => intro b; simp only [List.foldl_cons]; rw [hc]
  | trans _ _ ih1 ih2 => intro b; rw [ih1, ih2]

lemma linkPhase_perm (dt : ℚ) (A : Arena) {nodes nodes2 : List SNode}
    (p : nodes.Perm nodes2) : linkPhase dt A nodes = linkPhase dt A nodes2 :=
  foldl_perm_of_comm (nodeTransfer dt) (fun B x y => nodeTransfer_comm dt B x y) p A

lemma linkPhase_T (dt : ℚ) (nodes : List SNode) :
    ∀ (A : Arena) (k : ℕ), (linkPhase dt A nodes k).T = (A k).T := by
  induction nodes with
  | nil => intro A k; rfl
  | cons nd rest ih =>
      intro A k
      have h := ih (nodeTransfer dt A nd) k
      simpa [linkPhase, nodeTransfer_T] using h

lemma linkPhase_capacitance (dt : ℚ) (nodes : List SNode) :
    ∀ (A : Arena) (k : ℕ),
      (linkPhase dt A nodes k).capacitance = (A k).capacitance := by
  induction nodes with
  | nil => intro A k; rfl
  | cons nd rest ih =>
      intro A k
      have h := ih (nodeTransfer dt A nd) k
      simpa [linkPhase, nodeTransfer_capacitance] using h

lemma selfHeatAt_T (dt t : ℚ) (A : Arena) (i : ℕ) (k : ℕ) :
    (selfHeatAt dt t A i k).T = (A k).T := by
  unfold selfHeatAt
  by_cases h : k = i
  · subst h
    rw [Function.update_same]
    by_cases hc : (A k).P_is_constant <;> simp [hc, Element.accumulate_energy]
  · rw [Function.update_noteq h]

lemma powerPhase_T (dt t : ℚ) (power : List ℕ) :
    ∀ (A : Arena) (k : ℕ), (powerPhase dt t A power k).T = (A k).T := by
  induction power with
  | nil => intro A k; rfl
  | cons i rest ih =>
      intro A k
      have h := ih (selfHeatAt dt t A i) k
      simpa [powerPhase, selfHeatAt_T] using h

/-- C1: within one solver step every conductive link deposits `+ΔE` into one
endpoint's energy buffer and `−ΔE` into the other's (exact pairwise
conservation), no element's temperature is mutated by the link and self-heat
phases, and consequently one full solver step computed with any permutation of
the link list produces the same post-step arena (temperatures and buffers) as
the original order. -/
theorem claim_C1_step_order_independence
    (dt t : ℚ) (A : Arena) (nd : SNode) (nodes nodes2 : List SNode)
    (power coe presc : List ℕ)
    (hne : nd.i1 ≠ nd.i2) (hperm : nodes.Perm nodes2) :
    ((nodeTransfer dt A nd) nd.i1).energy_buffer
        = (A nd.i1).energy_buffer + qOf dt A nd
    ∧ ((nodeTransfer dt A nd) nd.i2).energy_buffer
        = (A nd.i2).energy_buffer + -(qOf dt A nd)
    ∧ (∀ k, ((nodeTransfer dt A nd) k).T = (A k).T)
    ∧ (∀ k, ((powerPhase dt t (linkPhase dt A nodes) power) k).T = (A k).T)
    ∧ solverStep dt t A nodes power coe presc
        = solverStep dt t A nodes2 power coe presc := by
  refine ⟨?_, ?_, ?_, ?_, ?_⟩
  · unfold nodeTransfer
    rw [accumAt_ne _ _ _ hne, accumAt_buffer_same]
  · unfold nodeTransfer
    rw [accumAt_buffer_same, accumAt_ne A nd.i1 (qOf dt A nd) (Ne.symm hne)]
  · intro k; exact nodeTransfer_T dt A nd k
  · intro k
    rw [powerPhase_T, linkPhase_T]
  · unfold solverStep
    rw [linkPhase_perm dt A hperm]

/-- Concrete two-element, two-link instance of C1. -/
def c1Elem (T0 : ℚ) : Element :=
  Element.initAux 1 1 1 "solid" "a" "." 1 1 1 true 0 (fun _ => 0) false T0
    (fun _ => 0)

/-- Concrete arena for the C1 witness: element 0 at 100 K, element 1 at 0 K. -/
def c1Arena : Arena := arenaOf [c1Elem 100, c1Elem 0]

/-- Witness for C1 at a concrete arena, link and link-list permutation. -/
theorem claim_C1_witness :
    ((nodeTransfer 1 c1Arena ⟨0, 1, 1⟩) 0).energy_buffer
        = (c1Arena 0).energy_buffer + qOf 1 c1Arena ⟨0, 1, 1⟩
    ∧ ((nodeTransfer 1 c1Arena ⟨0, 1, 1⟩) 1).energy_buffer
        = (c1Arena 1).energy_buffer + -(qOf 1 c1Arena ⟨0, 1, 1⟩)
    ∧ (∀ k, ((nodeTransfer 1 c1Arena ⟨0, 1, 1⟩) k).T = (c1Arena k).T)
    ∧ (∀ k, ((powerPhase 1 0 (linkPhase 1 c1Arena [⟨0, 1, 1⟩, ⟨1, 0, 2⟩]) []) k).T
        = (c1Arena k).T)
    ∧ solverStep 1 0 c1Arena [⟨0, 1, 1⟩, ⟨1, 0, 2⟩] [] [0, 1] []
        = solverStep 1 0 c1Arena [⟨1, 0, 2⟩, ⟨0, 1, 1⟩] [] [0, 1] [] :=
  claim_C1_step_order_independence 1 0 c1Arena ⟨0, 1, 1⟩
    [⟨0, 1, 1⟩, ⟨1, 0, 2⟩] [⟨1, 0, 2⟩, ⟨0, 1, 1⟩] [] [0, 1] []
    (by decide) (by decide)

/-! Helper lemmas for the conservation argument (C2). -/

/-- Total buffered energy over an index group. -/
def bufSum (A : Arena) (S : List ℕ) : ℚ :=
  (S.map (fun i => (A i).energy_buffer)).sum

/-- The conserved quantity `Σ T_i · capacitance_i` over an index group. -/
def TcapSum (A : Arena) (S : List ℕ) : ℚ :=
  (S.map (fun i => (A i).T * (A i).capacitance)).sum

lemma bufSum_accumAt (A : Arena) (j : ℕ) (q : ℚ) :
    ∀ S : List ℕ, S.Nodup →
      bufSum (accumAt A j q) S = bufSum A S + (if j ∈ S then q else 0) := by
  intro S
  induction S with
  | nil => intro _; simp [bufSum]
  | cons a rest ih =>
      intro hnd
      obtain ⟨ha, hrest⟩ := List.nodup_cons.mp hnd
      have ih2 := ih hrest
      simp only [bufSum, List.map_cons, List.sum_cons] at ih2 ⊢
      by_cases haj : a = j
      · subst haj
        rw [accumAt_buffer_same, ih2]
        simp [ha]
        ring
      · rw [accumAt_ne A j q haj, ih2]
        by_cases hjr : j ∈ rest
        · simp [hjr, List.mem_cons]
          ring
        · simp [hjr, List.mem_cons, Ne.symm haj]

lemma bufSum_nodeTransfer (dt : ℚ) (A : Arena) (nd : SNode) (S : List ℕ)
    (hS : S.Nodup) (h1 : nd.i1 ∈ S) (h2 : nd.i2 ∈ S) :
    bufSum (nodeTransfer dt A nd) S = bufSum A S := by
  unfold nodeTransfer
  rw [bufSum_accumAt _ _ _ S hS, bufSum_accumAt _ _ _ S hS]
  simp [h1, h2]

lemma bufSum_linkPhase (dt : ℚ) (S : List ℕ) (hS : S.Nodup)
    (nodes : List SNode) :
    ∀ A : Arena, (∀ nd ∈ nodes, nd.i1 ∈ S ∧ nd.i2 ∈ S) →
      bufSum (linkPhase dt A nodes) S = bufSum A S := by
  induction nodes with
  | nil => intro A _; rfl
  | cons nd rest ih =>
      intro A h
      have hstep : linkPhase dt A (nd :: rest)
          = linkPhase dt (nodeTransfer dt A nd) rest := rfl
      rw [hstep, ih (nodeTransfer dt A nd)
        (fun n hn => h n (List.mem_cons_of_mem nd hn)),
        bufSum_nodeTransfer dt A nd S hS (h nd (List.mem_cons_self nd rest)).1
          (h nd (List.mem_cons_self nd rest)).2]

lemma bufSum_zero (A : Arena) (S : List ℕ)
    (h : ∀ i, (A i).energy_buffer = 0) : bufSum A S = 0 := by
  simp [bufSum, h]

lemma TcapSum_congr {A B : Arena} (S : List ℕ)
    (hT : ∀ k, (B k).T = (A k).T)
    (hc : ∀ k, (B k).capacitance = (A k).capacitance) :
    TcapSum B S = TcapSum A S := by
  simp [TcapSum, hT, hc]

lemma applyAt_same (A : Arena) (i : ℕ) :
    applyAt A i i = (A i).apply_energy_buffer := by
  unfold applyAt
  exact Function.update_same i (A i).apply_energy_buffer A

lemma applyAt_ne (A : Arena) (i : ℕ) {k : ℕ} (h : k ≠ i) :
    applyAt A i k = A k := by
  unfold applyAt
  exact Function.update_noteq h (A i).apply_energy_buffer A

lemma applyPhase_ne (l : List ℕ) :
    ∀ (A : Arena) {i : ℕ}, i ∉ l → applyPhase A l i = A i := by
  induction l with
  | nil => intro A i _; rfl
  | cons a rest ih =>
      intro A i hi
      have hstep : applyPhase A (a :: rest) = applyPhase (applyAt A a) rest := rfl
      have hia : i ≠ a := fun hh => hi (by rw [hh]; exact List.mem_cons_self a rest)
      rw [hstep, ih (applyAt A a) (fun hh => hi (List.mem_cons_of_mem a hh)),
        applyAt_ne A a hia]

lemma applyPhase_buffer_mem (l : List ℕ) :
    ∀ (A : Arena) {i : ℕ}, i ∈ l →
      ((applyPhase A l) i).energy_buffer = 0 := by
  induction l with
  | nil => intro A i hi; exact absurd hi (List.not_mem_nil i)
  | cons a rest ih =>
      intro A i hi
      have hstep : applyPhase A (a :: rest) = applyPhase (applyAt A a) rest := rfl
      rw [hstep]
      by_cases hm : i ∈ rest
      · exact ih (applyAt A a) hm
      · have hia : i = a := by
          rcases List.mem_cons.mp hi with h | h
          · exact h
          · exact absurd h hm
        subst hia
        rw [applyPhase_ne rest (applyAt A i) hm, applyAt_same]
        rfl

lemma applyAt_capacitance (A : Arena) (i k : ℕ) :
    (applyAt A i k).capacitance = (A k).capacitance := by
  by_cases h : k = i
  · subst h; rw [applyAt_same]; rfl
  · rw [applyAt_ne A i h]

lemma apply_Tcap (e : Element) (hc : e.capacitance ≠ 0) :
    e.apply_energy_buffer.T * e.apply_energy_buffer.capacitance
      = e.T * e.capacitance + e.energy_buffer := by
  simp only [Element.apply_energy_buffer]
  rw [add_mul, div_mul_cancel₀ _ hc]

lemma TcapSum_applyPhase :
    ∀ S : List ℕ, S.Nodup → ∀ A : Arena,
      (∀ i ∈ S, (A i).capacitance ≠ 0) →
      TcapSum (applyPhase A S) S = TcapSum A S + bufSum A S := by
  intro S
  induction S with
  | nil => intro _ A _; simp [TcapSum, bufSum, applyPhase]
  | cons a rest ih =>
      intro hnd A hcap
      obtain ⟨ha, hrest⟩ := List.nodup_cons.mp hnd
      have hstep : applyPhase A (a :: rest) = applyPhase (applyAt A a) rest := rfl
      have hih := ih hrest (applyAt A a) (fun i hi => by
        rw [applyAt_capacitance]
        exact hcap i (List.mem_cons_of_mem a hi))
      have hTrest : TcapSum (applyAt A a) rest = TcapSum A rest := by
        unfold TcapSum
        refine congrArg List.sum (List.map_congr_left ?_)
        intro i hi
        rw [applyAt_ne A a (fun hh => ha (hh ▸ hi))]
      have hBrest : bufSum (applyAt A a) rest = bufSum A rest := by
        unfold bufSum
        refine congrArg List.sum (List.map_congr_left ?_)
        intro i hi
        rw [applyAt_ne A a (fun hh => ha (hh ▸ hi))]
      simp only [TcapSum, bufSum, List.map_cons, List.sum_cons] at hih hTrest hBrest ⊢
      rw [hstep, applyPhase_ne rest (applyAt A a) ha, applyAt_same,
        apply_Tcap (A a) (hcap a (List.mem_cons_self a rest)), hih, hTrest, hBrest]
      ring

lemma nodeTransfer_untouched (dt : ℚ) (A : Arena) (nd : SNode) {i : ℕ}
    (h1 : nd.i1 ≠ i) (h2 : nd.i2 ≠ i) : nodeTransfer dt A nd i = A i := by
  unfold nodeTransfer
  rw [accumAt_ne _ _ _ (Ne.symm h2), accumAt_ne _ _ _ (Ne.symm h1)]

lemma linkPhase_untouched (dt : ℚ) (nodes : List SNode) {i : ℕ} :
    ∀ A : Arena, (∀ nd ∈ nodes, nd.i1 ≠ i ∧ nd.i2 ≠ i) →
      linkPhase dt A nodes i = A i := by
  induction nodes with
  | nil => intro A _; rfl
  | cons nd rest ih =>
      intro A h
      have hstep : linkPhase dt A (nd :: rest)
          = linkPhase dt (nodeTransfer dt A nd) rest := rfl
      rw [hstep, ih (nodeTransfer dt A nd)
        (fun n hn => h n (List.mem_cons_of_mem nd hn)),
        nodeTransfer_untouched dt A nd (h nd (List.mem_cons_self nd rest)).1
          (h nd (List.mem_cons_self nd rest)).2]

/-- C2: for a lattice whose links connect only conservation-set volumes, with
no powered and no prescribed volume, one solver step leaves
`Σ T_i · capacitance_i` over the conservation set unchanged, and every
element's energy buffer — zero when the step begins — is zero again when the
step ends.  (The capacitance hypothesis excludes zero-capacitance volumes,
on which Python's `apply_energy_buffer` would raise ZeroDivisionError.) -/
theorem claim_C2_conservation
    (els : List Element) (nodes : List SNode) (dt t : ℚ)
    (hbuf : ∀ i, (arenaOf els i).energy_buffer = 0)
    (hcap : ∀ i ∈ elementsToCoE els, (arenaOf els i).capacitance ≠ 0)
    (hpow : elementsToPower els = [])
    (hpres : elementsToPrescribeT els = [])
    (hnodes : ∀ nd ∈ nodes,
      nd.i1 ∈ elementsToCoE els ∧ nd.i2 ∈ elementsToCoE els) :
    TcapSum (solverStep dt t (arenaOf els) nodes (elementsToPower els)
        (elementsToCoE els) (elementsToPrescribeT els)) (elementsToCoE els)
      = TcapSum (arenaOf els) (elementsToCoE els)
    ∧ ∀ i, ((solverStep dt t (arenaOf els) nodes (elementsToPower els)
        (elementsToCoE els) (elementsToPrescribeT els)) i).energy_buffer = 0 := by
  rw [hpow, hpres]
  have hstep : solverStep dt t (arenaOf els) nodes [] (elementsToCoE els) []
      = applyPhase (linkPhase dt (arenaOf els) nodes) (elementsToCoE els) := rfl
  rw [hstep]
  have hnd : (elementsToCoE els).Nodup :=
    List.Nodup.filter _ (List.nodup_range _)
  have hBT : ∀ k, ((linkPhase dt (arenaOf els) nodes) k).T = (arenaOf els k).T :=
    linkPhase_T dt nodes (arenaOf els)
  have hBc : ∀ k, ((linkPhase dt (arenaOf els) nodes) k).capacitance
      = (arenaOf els k).capacitance :=
    linkPhase_capacitance dt nodes (arenaOf els)
  constructor
  · rw [TcapSum_applyPhase (elementsToCoE els) hnd
      (linkPhase dt (arenaOf els) nodes)
      (fun i hi => by rw [hBc]; exact hcap i hi)]
    rw [TcapSum_congr (elementsToCoE els) hBT hBc,
      bufSum_linkPhase dt (elementsToCoE els) hnd nodes (arenaOf els) hnodes,
      bufSum_zero (arenaOf els) (elementsToCoE els) hbuf]
    ring
  · intro i
    by_cases hm : i ∈ elementsToCoE els
    · exact applyPhase_buffer_mem (elementsToCoE els)
        (linkPhase dt (arenaOf els) nodes) hm
    · have huntouched : ∀ nd ∈ nodes, nd.i1 ≠ i ∧ nd.i2 ≠ i := by
        intro nd hn
        constructor
        · intro hh
          exact hm (hh ▸ (hnodes nd hn).1)
        · intro hh
          exact hm (hh ▸ (hnodes nd hn).2)
      rw [applyPhase_ne (elementsToCoE els)
        (linkPhase dt (arenaOf els) nodes) hm,
        linkPhase_untouched dt nodes (arenaOf els) huntouched]
      exact hbuf i

/-- Witness for C2: two adjacent 1 m solid cubes at 100 K and 0 K joined by
one link, no power, no prescription. -/
theorem claim_C2_witness :
    TcapSum (solverStep 1 0 (arenaOf [c1Elem 100, c1Elem 0])
        [⟨0, 1, 1⟩] (elementsToPower [c1Elem 100, c1Elem 0])
        (elementsToCoE [c1Elem 100, c1Elem 0])
        (elementsToPrescribeT [c1Elem 100, c1Elem 0]))
      (elementsToCoE [c1Elem 100, c1Elem 0])
      = TcapSum (arenaOf [c1Elem 100, c1Elem 0])
        (elementsToCoE [c1Elem 100, c1Elem 0])
    ∧ ∀ i, ((solverStep 1 0 (arenaOf [c1Elem 100, c1Elem 0])
        [⟨0, 1, 1⟩] (elementsToPower [c1Elem 100, c1Elem 0])
        (elementsToCoE [c1Elem 100, c1Elem 0])
        (elementsToPrescribeT [c1Elem 100, c1Elem 0])) i).energy_buffer = 0 :=
  claim_C2_conservation [c1Elem 100, c1Elem 0] [⟨0, 1, 1⟩] 1 0
    (by
      intro i
      match i with
      | 0 => rfl
      | 1 => rfl
      | n + 2 => rfl)
    (by
      intro i hi
      have he : elementsToCoE [c1Elem 100, c1Elem 0] = [0, 1] := by decide
      rw [he] at hi
      fin_cases hi <;> norm_num [arenaOf, c1Elem, Element.initAux])
    (by decide) (by decide) (by decide)

/-! Concrete lattices used to evaluate the code on failing inputs. -/

/-- Material descriptor used by the extension/modification calls below. -/
def extProps : Props := ⟨"solid", "new", "+", 1, 1, 1⟩

/-- A 1 m reservoir-type cube. -/
def resEl : Element :=
  Element.initAux 1 1 1 "reservoir" "res" "#" 1 1 1 true 0 (fun _ => 0)
    false 0 (fun _ => 0)

/-- A 2×1×1 lattice of two adjacent reservoir-type volumes. -/
def resModel : ThermalModel := ⟨some [[[resEl]], [[resEl]]], 2, 1, 1, []⟩

/-- A 1 m solid cube labelled "old" at 7 K. -/
def oldEl : Element :=
  Element.initAux 1 1 1 "solid" "old" "." 1 1 1 true 0 (fun _ => 0)
    false 7 (fun _ => 0)

/-- A 1×1×1 lattice holding the "old" element. -/
def oneModel : ThermalModel := ⟨some [[[oldEl]]], 1, 1, 1, []⟩

/-- A 2×1×1 lattice of two "old" elements. -/
def twoModel : ThermalModel := ⟨some [[[oldEl]], [[oldEl]]], 2, 1, 1, []⟩

/-- C3 (code bug): on the 2×1×1 lattice of two adjacent reservoir-type
volumes, `generate_nodes` creates one x-direction link between them — the
claimed reservoir-to-reservoir suppression never fires because the code's
condition is `neighbor != null OR (element reservoir AND neighbor not
reservoir)`, whose first disjunct already holds for any non-null neighbor.
(The y/z branches additionally test the stale `neighbor_x` variable, embedded
faithfully in `genCellStep`.) -/
theorem claim_C3_reservoir_link_created :
    resEl.get_eltype = "reservoir"
    ∧ (resModel.generate_nodes).map
        (fun m => m.nodes.map (fun nd => (nd.i1, nd.i2)))
      = Except.ok [(0, 1)] :=
  ⟨rfl, by rfl⟩

/-- C4 (code bug): extending the 1×1×1 lattice on the low side
(`polarity = -1`) rebuilds **both** cells as fresh extension elements
(label "new", T = 0); the pre-existing element (label "old", T = 7 K) is not
carried over anywhere — the divider is set to the new total count, so the
old-volume branch `x >= divider` never runs. -/
theorem claim_C4_extend_low_side_discards_existing :
    (oneModel.extend_volume "x" (-1) 1 1 extProps (.num 0) (.num 0)).map
        (fun m => m.elements.map (fun lat =>
          lat.map (fun plane => plane.map (fun row =>
            row.map (fun e => (e.label, e.T))))))
      = Except.ok (some [[[("new", 0)]], [[("new", 0)]]])
    ∧ oldEl.label = "old" ∧ oldEl.T = 7 :=
  ⟨by with_unfolding_all rfl, rfl, rfl⟩

/-- C5 (code bug): extending the 1×1×1 lattice on the high side with `P = 10`
gives the single new-slab element `P = 10 / 2 = 5` — the divisor is the whole
extended lattice's element count (2), not the slab's own element count (1),
so the claimed per-slab division `10 / 1 = 10` does not happen. -/
theorem claim_C5_extend_power_divided_by_total_count :
    (oneModel.extend_volume "x" 1 1 1 extProps (.num 0) (.num 10)).map
        (fun m => m.elements.map (fun lat =>
          lat.map (fun plane => plane.map (fun row =>
            row.map (fun e => (e.label, e.P))))))
      = Except.ok (some [[[("old", 0)]], [[("new", 5)]]])
    ∧ (5 : ℚ) ≠ 10 :=
  ⟨by with_unfolding_all rfl, by norm_num⟩

/-- C9 (code bug): `modify_volume` starting at x-index 1 with x-extent 2 on
the 2×1×1 lattice raises IndexError only when the loop reaches index 2, after
the in-range element at index 1 has already been rebuilt with the new label —
the call fails *and* mutates the lattice, instead of failing upfront with the
lattice untouched. -/
theorem claim_C9_modify_out_of_envelope_partial_mutation :
    (twoModel.modify_volume 1 0 0 2 1 1 extProps (.num 0) (.num 0)).2
      = Except.error "IndexError: list index out of range"
    ∧ ((twoModel.modify_volume 1 0 0 2 1 1 extProps
          (.num 0) (.num 0)).1.elements.map
        (fun lat => lat.map (fun plane => plane.map (fun row =>
          row.map (fun e => e.label)))))
      = some [[["old"]], [["new"]]]
    ∧ oldEl.label = "old" :=
  ⟨by rfl, by with_unfolding_all rfl, rfl⟩

/-! C6: the conservation-set pre-pass and prescribed volumes. -/

/-- A solid volume with a prescribed temperature `T(t) = t + 5`. -/
def prescEl : Element :=
  Element.initAux 1 1 1 "solid" "p" "." 1 1 1 true 0 (fun _ => 0)
    true 5 (fun t => t + 5)

/-- C6 (counterexample): a prescribed solid volume **is** a member of the
solver's conservation set — the pre-pass tests only the element type, not
prescription — so `apply_energy_buffer` is invoked on it, contrary to the
claim that prescribed volumes are excluded. -/
theorem claim_C6_counterexample :
    prescEl.T_is_prescribed = true ∧ prescEl.get_eltype = "solid"
    ∧ 0 ∈ elementsToCoE [prescEl] :=
  ⟨rfl, rfl, by decide⟩

lemma prescribe_T_is_prescribed (e : Element) (t : ℚ) :
    (e.prescribe_temperature t).T_is_prescribed = e.T_is_prescribed := by
  unfold Element.prescribe_temperature
  split <;> rfl

lemma prescribe_T_of_t (e : Element) (t : ℚ) :
    (e.prescribe_temperature t).T_of_t = e.T_of_t := by
  unfold Element.prescribe_temperature
  split <;> rfl

lemma prescribeAt_same (t : ℚ) (A : Arena) (i : ℕ) :
    prescribeAt t A i i = (A i).prescribe_temperature t := by
  unfold prescribeAt
  exact Function.update_same i ((A i).prescribe_temperature t) A

lemma prescribeAt_ne (t : ℚ) (A : Arena) (i : ℕ) {k : ℕ} (h : k ≠ i) :
    prescribeAt t A i k = A k := by
  unfold prescribeAt
  exact Function.update_noteq h ((A i).prescribe_temperature t) A

lemma prescribePhase_ne (t : ℚ) (l : List ℕ) :
    ∀ (A : Arena) {i : ℕ}, i ∉ l → prescribePhase t A l i = A i := by
  induction l with
  | nil => intro A i _; rfl
  | cons a rest ih =>
      intro A i hi
      have hia : i ≠ a := fun hh => hi (by rw [hh]; exact List.mem_cons_self a rest)
      have hstep : prescribePhase t A (a :: rest)
          = prescribePhase t (prescribeAt t A a) rest := rfl
      rw [hstep, ih (prescribeAt t A a)
        (fun hh => hi (List.mem_cons_of_mem a hh)), prescribeAt_ne t A a hia]

lemma prescribePhase_T_mem (t : ℚ) (l : List ℕ) :
    ∀ (A : Arena) {i : ℕ}, i ∈ l → (A i).T_is_prescribed = true →
      ((prescribePhase t A l) i).T = (A i).T_of_t t := by
  induction l with
  | nil => intro A i hi _; exact absurd hi (List.not_mem_nil i)
  | cons a rest ih =>
      intro A i hi hp
      have hstep : prescribePhase t A (a :: rest)
          = prescribePhase t (prescribeAt t A a) rest := rfl
      rw [hstep]
      by_cases hm : i ∈ rest
      · have hp2 : ((prescribeAt t A a) i).T_is_prescribed = true := by
          by_cases hia : i = a
          · subst hia
            rw [prescribeAt_same, prescribe_T_is_prescribed]
            exact hp
          · rw [prescribeAt_ne t A a hia]
            exact hp
        have hof : ((prescribeAt t A a) i).T_of_t = (A i).T_of_t := by
          by_cases hia : i = a
          · subst hia
            rw [prescribeAt_same, prescribe_T_of_t]
          · rw [prescribeAt_ne t A a hia]
        rw [ih (prescribeAt t A a) hm hp2, hof]
      · have hia : i = a := by
          rcases List.mem_cons.mp hi with h | h
          · exact h
          · exact absurd h hm
        subst hia
        rw [prescribePhase_ne t rest (prescribeAt t A i) hm, prescribeAt_same]
        unfold Element.prescribe_temperature
        rw [hp]
        rfl

/-- C6 (amended): the solver pre-pass conservation set contains exactly the
non-null, non-reservoir volumes — prescription is not consulted —, the
buffer-application pass drains the buffer of every conservation-set member
(prescribed solids included), and the subsequent prescribe pass overwrites a
prescribed member's temperature with its time-function value. -/
theorem claim_C6_amended :
    (∀ (els : List Element) (i : ℕ),
      i ∈ elementsToCoE els ↔ i < els.length
        ∧ (els.getD i default).eltype ≠ "null"
        ∧ (els.getD i default).eltype ≠ "reservoir")
    ∧ (∀ (A : Arena) (coe : List ℕ) (i : ℕ), i ∈ coe →
        ((applyPhase A coe) i).energy_buffer = 0)
    ∧ (∀ (t : ℚ) (presc : List ℕ) (A : Arena) (i : ℕ), i ∈ presc →
        (A i).T_is_prescribed = true →
        ((prescribePhase t A presc) i).T = (A i).T_of_t t) := by
  refine ⟨?_, ?_, ?_⟩
  · intro els i
    simp [elementsToCoE, List.mem_filter, List.mem_range]
  · intro A coe i hi
    exact applyPhase_buffer_mem coe A hi
  · intro t presc A i hi hp
    exact prescribePhase_T_mem t presc A hi hp

/-- Witness for the amended C6 at the prescribed solid volume `prescEl`. -/
theorem claim_C6_amended_witness :
    (0 ∈ elementsToCoE [prescEl] ↔ 0 < [prescEl].length
      ∧ ([prescEl].getD 0 default).eltype ≠ "null"
      ∧ ([prescEl].getD 0 default).eltype ≠ "reservoir")
    ∧ ((applyPhase (arenaOf [prescEl]) [0]) 0).energy_buffer = 0
    ∧ ((prescribePhase 3 (arenaOf [prescEl]) [0]) 0).T
      = (arenaOf [prescEl] 0).T_of_t 3 :=
  ⟨claim_C6_amended.1 [prescEl] 0,
   claim_C6_amended.2.1 (arenaOf [prescEl]) [0] 0 (by decide),
   claim_C6_amended.2.2 3 [0] (arenaOf [prescEl]) 0 (by decide) (by rfl)⟩

/-! C8: the max-temperature aggregation. -/

/-- A solid volume at −5 (Python floats can hold any sign; the code never
restricts T). -/
def coldEl : Element :=
  Element.initAux 1 1 1 "solid" "cold" "." 1 1 1 true 0 (fun _ => 0)
    false (-5) (fun _ => 0)

/-- C8 (counterexample): on the non-empty group `[coldEl]` with member
temperature −5, `observe_T_max` returns the fold seed 0 — not the group's
maximum −5 — and on the empty group it returns the sentinel 0 instead of
failing. -/
theorem claim_C8_counterexample :
    observe_T_max [coldEl] = 0 ∧ coldEl.T = -5 ∧ (0 : ℚ) ≠ -5
    ∧ observe_T_max [] = 0 :=
  ⟨by with_unfolding_all rfl, rfl, by norm_num, rfl⟩

lemma observe_T_max_foldl (l : List Element) :
    ∀ acc : ℚ, l.foldl (fun m e => if e.T > m then e.T else m) acc
      = (l.map Element.T).foldl max acc := by
  induction l with
  | nil => intro acc; rfl
  | cons e rest ih =>
      intro acc
      have hstep : (if e.T > acc then e.T else acc) = max acc e.T := by
        rcases le_or_lt e.T acc with h | h
        · rw [if_neg (not_lt.mpr h), max_eq_left h]
        · rw [if_pos h, max_eq_right h.le]
      simp only [List.foldl_cons, List.map_cons, hstep]
      exact ih (max acc e.T)

/-- C8 (amended): `observe_T_max` computes the maximum of the fold seed 0 and
the members' temperatures; in particular an empty group yields the sentinel 0
rather than an error, and a group whose members are all below 0 also yields
0. -/
theorem claim_C8_amended :
    (∀ els : List Element, observe_T_max els = (els.map Element.T).foldl max 0)
    ∧ observe_T_max [] = (0 : ℚ) :=
  ⟨fun els => observe_T_max_foldl els 0, rfl⟩

/-- Witness for the amended C8 at a concrete one-element group. -/
theorem claim_C8_amended_witness :
    observe_T_max [coldEl] = ([coldEl].map Element.T).foldl max 0
    ∧ observe_T_max [] = (0 : ℚ) :=
  ⟨claim_C8_amended.1 [coldEl], claim_C8_amended.2⟩

/-! C10: time-function sources resolved at construction time. -/

lemma observe_P_foldl (l : List Element) :
    ∀ acc : ℚ, l.foldl (fun a e => a + e.P) acc = acc + (l.map Element.P).sum := by
  induction l with
  | nil => intro acc; simp
  | cons e rest ih =>
      intro acc
      simp only [List.foldl_cons, List.map_cons, List.sum_cons]
      rw [ih (acc + e.P)]
      ring

/-- C10: constructing (or re-initialising via `modify`) a volume whose `P` or
`T` argument is a time function immediately evaluates that function at time 0
and stores the result in the numeric `P`/`T` field; the power aggregation
`observe_P` sums exactly these numeric fields. -/
theorem claim_C10_callable_evaluated_at_time_zero :
    (∀ (x y z k cp rho : ℚ) (et lb rsym : String) (f g : ℚ → ℚ),
      (Element.init x y z et lb rsym k (.fn g) (.fn f) cp rho).map
          (fun e => (e.P, e.T, e.P_is_constant, e.T_is_prescribed))
        = Except.ok (f 0, g 0, false, true))
    ∧ (∀ (e0 : Element) (k cp rho : ℚ) (et lb rsym : String) (f g : ℚ → ℚ),
      (Element.modify e0 et lb rsym k (.fn g) (.fn f) cp rho).map
          (fun e => (e.P, e.T)) = Except.ok (f 0, g 0))
    ∧ (∀ els : List Element, observe_P els = (els.map Element.P).sum) := by
  refine ⟨?_, ?_, ?_⟩
  · intro x y z k cp rho et lb rsym f g
    rfl
  · intro e0 k cp rho et lb rsym f g
    rfl
  · intro els
    have h := observe_P_foldl els 0
    simpa [observe_P] using h

/-- Witness for C10 at concrete time functions `P(t) = 3t`, `T(t) = t + 2`. -/
theorem claim_C10_witness :
    (Element.init 1 1 1 "solid" "w" "." 1 (.fn (fun t => t + 2))
        (.fn (fun t => t * 3)) 1 1).map
        (fun e => (e.P, e.T, e.P_is_constant, e.T_is_prescribed))
      = Except.ok ((fun t : ℚ => t * 3) 0, (fun t : ℚ => t + 2) 0, false, true) :=
  claim_C10_callable_evaluated_at_time_zero.1 1 1 1 1 1 1 "solid" "w" "."
    (fun t => t * 3) (fun t => t + 2)

/-! C7: the convergence early exit of the solver loop. -/

lemma sampleBlock_inl {dt_sampling dT_dt_converge : ℚ} {conv : List ℕ}
    {o1 o2 o3 : List (List ℕ)} {st : LoopState} {df : List (List ℚ)}
    (h : sampleBlock dt_sampling dT_dt_converge conv o1 o2 o3 st = Sum.inl df) :
    df = st.df := by
  simp only [sampleBlock] at h
  split at h
  · exact ((Sum.inl.injEq _ _).mp h).symm
  · exact absurd h (by simp)

lemma sampleBlock_inr {dt_sampling dT_dt_converge : ℚ} {conv : List ℕ}
    {o1 o2 o3 : List (List ℕ)} {st st1 : LoopState}
    (h : sampleBlock dt_sampling dT_dt_converge conv o1 o2 o3 st = Sum.inr st1) :
    st1.t_cur = st.t_cur
    ∧ st1.df = st.df ++ [sampleRow st.A st.t_cur o1 o2 o3] := by
  simp only [sampleBlock] at h
  split at h
  · exact absurd h (by simp)
  · have h2 := (Sum.inr.injEq _ _).mp h
    rw [← h2]
    exact ⟨rfl, rfl⟩

lemma sampleRow_headD (A : Arena) (t : ℚ) (o1 o2 o3 : List (List ℕ)) :
    (sampleRow A t o1 o2 o3).headD 0 = t := rfl

lemma solveLoop_converged_inv
    (dt dt_sampling t_max dT_dt_converge : ℚ) (interval : ℕ)
    (nodes : List SNode) (power coe presc conv : List ℕ)
    (o1 o2 o3 : List (List ℕ)) (hdt : 0 < dt) :
    ∀ (fuel : ℕ) (st : LoopState) (df : List (List ℚ)) (tf : ℚ),
      (∀ r ∈ st.df, r.headD 0 < st.t_cur) →
      solveLoop dt dt_sampling t_max dT_dt_converge interval nodes power coe
        presc conv o1 o2 o3 fuel st = (df, .converged tf) →
      (∀ r ∈ df, r.headD 0 < tf) ∧ tf < t_max := by
  intro fuel
  induction fuel with
  | zero =>
      intro st df tf _ hrun
      simp only [solveLoop, Prod.mk.injEq] at hrun
      exact absurd hrun.2 (by simp)
  | succ fuel ih =>
      intro st df tf hinv hrun
      simp only [solveLoop] at hrun
      by_cases hlt : st.t_cur < t_max
      · rw [if_pos hlt] at hrun
        rcases hcase : (if st.iteration % interval = 0 then
            sampleBlock dt_sampling dT_dt_converge conv o1 o2 o3 st
          else Sum.inr st) with df0 | st1
        · rw [hcase] at hrun
          simp only [Prod.mk.injEq, StopReason.converged.injEq] at hrun
          obtain ⟨hdf, htf⟩ := hrun
          have hdf0 : df0 = st.df := by
            split at hcase
            · exact sampleBlock_inl hcase
            · exact absurd hcase (by simp)
          subst htf
          refine ⟨?_, hlt⟩
          intro r hr
          rw [← hdf, hdf0] at hr
          exact hinv r hr
        · rw [hcase] at hrun
          have ht1 : st1.t_cur = st.t_cur
              ∧ (st1.df = st.df ∨
                 st1.df = st.df ++ [sampleRow st.A st.t_cur o1 o2 o3]) := by
            split at hcase
            · have h2 := sampleBlock_inr hcase
              exact ⟨h2.1, Or.inr h2.2⟩
            · have h2 := (Sum.inr.injEq _ _).mp hcase
              rw [← h2]
              exact ⟨rfl, Or.inl rfl⟩
          refine ih _ df tf ?_ hrun
          intro r hr
          replace hr : r ∈ st1.df := hr
          show r.headD 0 < st1.t_cur + dt
          rcases ht1.2 with hdf1 | hdf1
          · have hb := hinv r (hdf1 ▸ hr)
            rw [ht1.1]
            linarith
          · rcases List.mem_append.mp (hdf1 ▸ hr) with h | h
            · have hb := hinv r h
              rw [ht1.1]
              linarith
            · have heq : r = sampleRow st.A st.t_cur o1 o2 o3 :=
                List.mem_singleton.mp h
              rw [heq, sampleRow_headD, ht1.1]
              linarith
      · rw [if_neg hlt] at hrun
        simp only [Prod.mk.injEq] at hrun
        exact absurd hrun.2 (by simp)

/-- C7: whenever `solve` returns through the convergence break, every row of
the returned table bears a time strictly below the firing instant `tf` —
i.e. the sample at which convergence fired was *not* recorded, so the last
row is the previously recorded sample — and `tf` itself, hence every recorded
time, is strictly below `t_max`. -/
theorem claim_C7_convergence_stops_before_sample
    (els : List Element) (nodes : List SNode) (conv : List ℕ)
    (o1 o2 o3 : List (List ℕ)) (dt dt_sampling t_max dT_dt_converge : ℚ)
    (fuel : ℕ) (df : List (List ℚ)) (tf : ℚ) (hdt : 0 < dt)
    (hrun : solve els nodes conv o1 o2 o3 dt dt_sampling t_max
      dT_dt_converge fuel = (df, .converged tf)) :
    (∀ r ∈ df, r.headD 0 < tf) ∧ tf < t_max
    ∧ (∀ r ∈ df, r.headD 0 < t_max) := by
  unfold solve at hrun
  have h := solveLoop_converged_inv dt dt_sampling t_max dT_dt_converge
    (pyInt (dt_sampling / dt)).toNat nodes (elementsToPower els)
    (elementsToCoE els) (elementsToPrescribeT els) conv o1 o2 o3 hdt fuel
    { iteration := 0, t_cur := 0, Tprev := none, Tcur := none, dTdt := none,
      A := arenaOf els, df := [] } df tf
    (by intro r hr; exact absurd hr (List.not_mem_nil r)) hrun
  exact ⟨h.1, h.2, fun r hr => lt_trans (h.1 r hr) h.2⟩

/-- A single solid volume at 5 K used for the C7 witness run. -/
def c7El : Element :=
  Element.initAux 1 1 1 "solid" "a" "." 1 1 1 true 0 (fun _ => 0)
    false 5 (fun _ => 0)

/-- Witness for C7: an unpowered single-volume run with `dt = dt_sampling = 1`,
`t_max = 10` and threshold 1 converges at the second sampling instant
(`t = 1`), returning the one-row table `[[0]]`. -/
theorem claim_C7_witness :
    (∀ r ∈ [[(0 : ℚ)]], r.headD 0 < 1) ∧ (1 : ℚ) < 10
    ∧ (∀ r ∈ [[(0 : ℚ)]], r.headD 0 < 10) :=
  claim_C7_convergence_stops_before_sample [c7El] [] [0] [] [] [] 1 1 10 1
    30 [[0]] 1 (by norm_num) (by with_unfolding_all rfl)

end ThermalStack
